import Mathlib

/-!
Verification of the remirror events extension (the event-correlation and
dispatch layer found in the repository source).  The definitions below are a
shallow embedding of the `EventsExtension` class and its helper functions:
the `@extension` decorator metadata (`handlerKeys`, `handlerKeyOptions`),
`onView`, `createPlugin` (`handleClickOn`, `handleDOMEvents`),
`isInteracting`, `startMouseover`, `endMouseover`, `createMouseEventHandler`
and `createClickMarkState`.  Collaborator pieces that live outside the
provided source (the `@remirror/core` handler-chain composer, the host view's
bubbling contract, the `range` helper, `getMarkRange`, and the
prosemirror-model `ResolvedPos` accessors) are modelled from the
specification, each marked in its doc comment.
-/

/-- The event kinds handled by the events extension.  `hover` appears in
`EventsOptions` and in `createPlugin`'s DOM wiring, so it is a constructor
here, even though the source's `handlerKeys` list omits it. -/
inductive EventKind where
  | blur
  | focus
  | mousedown
  | mouseup
  | mouseenter
  | mouseleave
  | click
  | clickMark
  | contextmenu
  | hover
deriving DecidableEq, Repr, Fintype

/-- The `handlerKeys` list from the `@extension` decorator on
`EventsExtension`.  Transcribed verbatim from the source; note that
`hover` is absent although the extension declares and invokes a `hover`
handler option. -/
def handlerKeys : List EventKind :=
  [.blur, .focus, .mousedown, .mouseup, .mouseenter, .mouseleave,
   .click, .clickMark, .contextmenu]

/-- The `handlerKeyOptions` from the `@extension` decorator: the kinds that
carry `earlyReturnValue: true`.  All other kinds have no early-return
configuration. -/
def earlyReturnValue : EventKind → Bool
  | .blur => true
  | .focus => true
  | .mousedown => true
  | .mouseleave => true
  | .mouseup => true
  | .click => true
  | _ => false

/-- The `handleDOMEvents` wiring of `createPlugin`: which DOM event name
invokes which handler-option chain.  `mouseout` and `mouseover` both invoke
the `hover` chain, `contextmenu` invokes the `contextmenu` chain, and the
remaining DOM events invoke the chain of the same name. -/
def handleDOMEventsWiring : List (String × EventKind) :=
  [("focus", .focus), ("blur", .blur), ("mousedown", .mousedown),
   ("mouseup", .mouseup), ("mouseleave", .mouseleave),
   ("mouseenter", .mouseenter), ("mouseout", .hover),
   ("mouseover", .hover), ("contextmenu", .contextmenu)]

/-- Modelled from the spec: the early-return dispatch policy of the handler
registry ("stop invoking further handlers as soon as one handler's return
value is truthy; the aggregate result is truthy").  The input list is the
sequence of handler return values in priority order; the output is the
aggregate result together with the number of handlers actually invoked. -/
def runEarlyReturnChain : List Bool → Bool × Nat
  | [] => (false, 0)
  | r :: rs =>
      if r then (true, 1)
      else
        let rest := runEarlyReturnChain rs
        (rest.1, rest.2 + 1)

/-- Modelled from the spec: the run-all dispatch policy ("invoke every
handler regardless of individual results; aggregate result is the logical OR
of all results"). -/
def runAllChain (rs : List Bool) : Bool × Nat :=
  (rs.any id, rs.length)

/-- Modelled from the spec: chain dispatch selects the policy for a kind
from its `handlerKeyOptions` entry, resolved once at registry construction
time. -/
def dispatchChain (k : EventKind) (rs : List Bool) : Bool × Nat :=
  if earlyReturnValue k then runEarlyReturnChain rs else runAllChain rs

/-- A document node as far as the dispatch layer observes it: a node type
(identified by name, mirroring prosemirror type-object identity within one
schema) plus an identity tag distinguishing distinct nodes of one type. -/
structure PMNode where
  typeName : String
  id : Nat
deriving DecidableEq, Repr

/-- A mark range as produced by `getMarkRange`: the mark's type name and the
covered span.  Mark identity is by type, which is how both `find` callbacks
in the source compare marks (`range.mark.type === type`). -/
structure MarkRange where
  markType : String
  rangeFrom : Nat
  rangeTo : Nat
deriving DecidableEq, Repr

/-- The schema as observed by the handlers: the node type names and mark
type names it defines (`schema.nodes[name]` / `schema.marks[name]` lookups
succeed exactly for these names). -/
structure Schema where
  nodes : List String
  marks : List String
deriving DecidableEq, Repr

/-- Look up a node type by name, as `schema.nodes[nodeType]` does; `none`
models the `undefined` returned for unknown names. -/
def Schema.lookupNode (s : Schema) (name : String) : Option String :=
  if name ∈ s.nodes then some name else none

/-- Look up a mark type by name, as `schema.marks[markType]` does. -/
def Schema.lookupMark (s : Schema) (name : String) : Option String :=
  if name ∈ s.marks then some name else none

/-- Modelled from the spec: a resolved position ("an opaque handle into the
document tree at a specific offset", exposing the ancestor node at each
depth, the offset before each ancestor, the marks active at the offset, and
the depth, with depth 0 the document root).  The representation mirrors
prosemirror-model's `ResolvedPos`: `nodesPath` lists the ancestors root
first (so its length is depth + 1), `beforePath` lists `before(d)` for
`1 ≤ d ≤ depth`, and `nodeAfter` is the node directly following the
position, when one exists.  `rangeOf` stands for the external
`getMarkRange` mark-range calculator, kept abstract. -/
structure RPos where
  pos : Nat
  nodesPath : List PMNode
  beforePath : List Nat
  nodeAfter : Option PMNode
  activeMarks : List String
  rangeOf : String → Option MarkRange

/-- The depth of a resolved position: prosemirror-model defines it as
`path.length / 3 - 1`, i.e. one less than the number of ancestors. -/
def RPos.depth (p : RPos) : Nat :=
  p.nodesPath.length - 1

/-- The ancestor node at depth `d`.  prosemirror-model's `node(depth)` reads
`path[depth * 3]`, so a depth beyond the position's depth yields
`undefined`; the `Option` result models that. -/
def RPos.node (p : RPos) (d : Nat) : Option PMNode :=
  p.nodesPath[d]?

/-- The offset before the ancestor at depth `d`: prosemirror-model returns
`pos` itself for `d = depth + 1` and the recorded path offset for
`1 ≤ d ≤ depth`.  Only those depths are ever queried by the embedded code. -/
def RPos.before (p : RPos) (d : Nat) : Nat :=
  if d = p.depth + 1 then p.pos else p.beforePath.getD (d - 1) 0

/-- Modelled from the spec: the two-argument `range` helper from
`@remirror/core` (not under the provided source), an inclusive integer
sequence that counts down when `start > stop` — the direction and inclusive
bounds are pinned by the documented innermost-first ordering and the
`depth + 1` chain length. -/
def rrange (start stop : Nat) : List Nat :=
  if start ≤ stop then (List.range (stop + 1 - start)).map (· + start)
  else (List.range (start + 1 - stop)).map (start - ·)

/-- A node together with the position before it, as pushed onto the `nodes`
array of `createMouseEventHandler`.  The `node` field is an `Option` because
the source expression `index > $pos.depth && $pos.nodeAfter ? $pos.nodeAfter
: $pos.node(index)` can produce `undefined` (when `nodeAfter` is absent and
`index` exceeds the depth). -/
structure NodeWithPos where
  node : Option PMNode
  pos : Nat
deriving DecidableEq, Repr

/-- The ancestor-chain ("Populate the nodes") loop of
`createMouseEventHandler`: for each `index` of `range(currentNodeDepth, 1)`
with `currentNodeDepth = depth + 1`, push the node
`index > depth && nodeAfter ? nodeAfter : node(index)` at position
`before(index)`. -/
def buildNodes (p : RPos) : List NodeWithPos :=
  (rrange (p.depth + 1) 1).map fun index =>
    { node := if decide (p.depth < index) && p.nodeAfter.isSome
              then p.nodeAfter else p.node index
      pos := p.before index }

/-- The mark-population loop shared by `createMouseEventHandler` and
`createClickMarkState`: for each mark type active at the position, keep the
range `getMarkRange` finds for it, when any. -/
def buildMarkRanges (p : RPos) : List MarkRange :=
  p.activeMarks.filterMap p.rangeOf

/-- The `getMark` lookup shared (verbatim, including its error message) by
`createMouseEventHandler` and `createClickMarkState`: resolve the mark type
by name, fault via `invariant` when the schema does not define it (modelled
from the spec as a descriptive `Except.error`), otherwise return the first
computed range of that type, or `none` when no range matches. -/
def getMarkFor (schema : Schema) (ranges : List MarkRange) (name : String) :
    Except String (Option MarkRange) :=
  match schema.lookupMark name with
  | none =>
      .error ("The mark " ++ name ++
        " being checked does not exist within the editor schema.")
  | some t => .ok (ranges.find? fun r => r.markType == t)

/-- The `getNode` of `ClickHandlerState` (inside `handleClickOn`): resolve
the node type by name, fault via `invariant` when it does not exist in the
schema, otherwise compare it against the type of the node passed to this
`handleClickOn` invocation and return the node with its position on a match,
`undefined` otherwise. -/
def clickGetNode (schema : Schema) (node : PMNode) (nodePos : Nat)
    (name : String) : Except String (Option (PMNode × Nat)) :=
  match schema.lookupNode name with
  | none => .error "The node being checked does not exist"
  | some t =>
      .ok (if node.typeName == t then some (node, nodePos) else none)

/-- JavaScript semantics of `nodes.find(({ node }) => node.type === type)`:
the predicate dereferences `node.type`, so an entry whose `node` is
`undefined` makes the lookup throw a `TypeError` before any later entry is
inspected. -/
def findNodeByType (t : String) : List NodeWithPos →
    Except String (Option NodeWithPos)
  | [] => .ok none
  | nw :: rest =>
      match nw.node with
      | none => .error "TypeError: cannot read type of undefined node"
      | some n =>
          if n.typeName == t then .ok (some nw) else findNodeByType t rest

/-- The `getNode` of `createMouseEventHandler`: resolve the node type by
name (faulting when the schema lacks it), find the first chain entry of that
type, and decorate it with `isRoot`, which compares it against the first
(innermost) chain entry via `nodes[0]?.node.eq(...)`. -/
def mouseGetNode (schema : Schema) (nodes : List NodeWithPos)
    (name : String) : Except String (Option (NodeWithPos × Bool)) :=
  match schema.lookupNode name with
  | none => .error "The node being checked does not exist"
  | some t =>
      match findNodeByType t nodes with
      | .error e => .error e
      | .ok none => .ok none
      | .ok (some nw) =>
          .ok (some (nw, match nodes.head? with
                         | none => false
                         | some h => h.node == nw.node))

/-- The state handed to `clickMark` handlers (and embedded into the `click`
handler state).  `getMark` is carried as a function, exactly as the source
stores a callback on the state object. -/
structure ClickMarkHandlerState where
  markRanges : List MarkRange
  getMark : String → Except String (Option MarkRange)

/-- `createClickMarkState`: when the event was already handled (dedup cache
hit) the state keeps an empty `markRanges` list and the `noop` `getMark`
(which returns `undefined` for every argument); otherwise the mark ranges at
the position are computed and `getMark` searches them with the
schema-checked lookup. -/
def createClickMarkState (schema : Schema) (p : RPos) (handled : Bool) :
    ClickMarkHandlerState :=
  if handled then
    { markRanges := [], getMark := fun _ => .ok none }
  else
    let ranges := buildMarkRanges p
    { markRanges := ranges, getMark := getMarkFor schema ranges }

/-- Everything one `handleClickOn` invocation observably does, recorded as
data: the dedup flag it read, which handler chains it invoked (in order),
the `markRanges` of the base state it built, the `direct` flag it passed
through to the click state, and its return value. -/
structure ClickInvocationRecord where
  handled : Bool
  clickMarkRan : Bool
  clickRan : Bool
  invokedChains : List EventKind
  baseMarkRanges : List MarkRange
  direct : Bool
  returnValue : Bool
deriving DecidableEq, Repr

/-- The `handleClickOn` prop of `createPlugin`.  `eventSeen` is the state of
the `WeakMap` dedup cache for the raw event (`eventMap.has(event)`);
`clickMarkChainResult` and `clickChainResult` are the aggregate results of
invoking `this.options.clickMark` and `this.options.click`.  The body
mirrors the source: read `handled`, build the base state, run the
`clickMark` chain only when not handled, always run the `click` chain,
mark the event as seen, and return `click(...) || returnValue`.  The result
pairs the invocation record with the new dedup-cache state for the event. -/
def handleClickOn (schema : Schema) (p : RPos) (direct : Bool)
    (eventSeen : Bool) (clickMarkChainResult clickChainResult : Bool) :
    ClickInvocationRecord × Bool :=
  let handled := eventSeen
  let base := createClickMarkState schema p handled
  let returnValue := if !handled then clickMarkChainResult || false else false
  ({ handled := handled
     clickMarkRan := !handled
     clickRan := true
     invokedChains := (if !handled then [EventKind.clickMark] else []) ++
       [EventKind.click]
     baseMarkRanges := base.markRanges
     direct := direct
     returnValue := clickChainResult || returnValue }, true)

/-- Modelled from the spec: the host view's bubbling contract ("the raw
click callback is invoked once per ancestor node on the path from the
directly clicked node to the root", with `direct` true exactly on the
first, innermost invocation).  The dedup-cache state is threaded through
the successive invocations. -/
def clickBubbleGo (schema : Schema) (p : RPos)
    (clickMarkChainResult clickChainResult : Bool) :
    Bool → Bool → Nat → List ClickInvocationRecord
  | _, _, 0 => []
  | eventSeen, direct, n + 1 =>
      let out := handleClickOn schema p direct eventSeen
        clickMarkChainResult clickChainResult
      out.1 :: clickBubbleGo schema p clickMarkChainResult clickChainResult
        out.2 false n

/-- One physical click on a node with `n` ancestors (the directly clicked
node included): the host invokes `handleClickOn` `n` times, innermost
first, starting with a fresh dedup cache and `direct = true`. -/
def simulateClickBubbling (schema : Schema) (p : RPos)
    (clickMarkChainResult clickChainResult : Bool) (n : Nat) :
    List ClickInvocationRecord :=
  clickBubbleGo schema p clickMarkChainResult clickChainResult false true n

/-- The interaction-tracking state of the extension instance: the private
`mousedown` and `mouseover` boolean fields, plus whether the one-shot
document-level `mouseup` listener attached by `startMouseover` is currently
pending. -/
structure EventsState where
  mousedown : Bool
  mouseover : Bool
  mouseupListener : Bool
deriving DecidableEq, Repr, Fintype

/-- The initial field values of a fresh `EventsExtension` instance:
`mousedown = false`, `mouseover = false`, no listener attached. -/
def initialEventsState : EventsState :=
  { mousedown := false, mouseover := false, mouseupListener := false }

/-- `startMouseover`: set `mouseover = true`; then, unless `mousedown` is
already set, set it and attach a one-shot `mouseup` listener on the page's
document element. -/
def startMouseover (s : EventsState) : EventsState :=
  let s := { s with mouseover := true }
  if s.mousedown then s
  else { s with mousedown := true, mouseupListener := true }

/-- `endMouseover`: clear `mousedown` (and trigger an empty update, a pure
UI refresh with no observable state) unless it is already clear. -/
def endMouseover (s : EventsState) : EventsState :=
  if !s.mousedown then s else { s with mousedown := false }

/-- The DOM events that touch the interaction state.  A `mouseup` carries
whether it happened inside the editor bounds: only then does the editor's
own `mouseup` plugin handler run, while the document-level one-shot
listener fires for a `mouseup` anywhere on the page. -/
inductive InteractionEvent where
  | mousedownEvt
  | mouseupEvt (insideEditor : Bool)
  | mouseenterEvt
  | mouseleaveEvt
deriving DecidableEq, Repr, Fintype

/-- One DOM event applied to the interaction state, following
`handleDOMEvents`: `mousedown` runs `startMouseover`, `mouseup` inside the
editor runs `endMouseover`, `mouseenter`/`mouseleave` set/clear `mouseover`;
afterwards a pending one-shot document listener fires `endMouseover` on any
`mouseup` and detaches itself. -/
def interactionStep (s : EventsState) : InteractionEvent → EventsState
  | .mousedownEvt => startMouseover s
  | .mouseupEvt insideEditor =>
      let s1 := if insideEditor then endMouseover s else s
      if s1.mouseupListener then
        endMouseover { s1 with mouseupListener := false }
      else s1
  | .mouseenterEvt => { s with mouseover := true }
  | .mouseleaveEvt => { s with mouseover := false }

/-- A trace of DOM events applied in order from a given state. -/
def interactionRun (s : EventsState) : List InteractionEvent → EventsState
  | [] => s
  | e :: es => interactionRun (interactionStep s e) es

/-- The `isInteracting` helper: `this.mousedown && this.mouseover`. -/
def isInteracting (s : EventsState) : Bool :=
  s.mousedown && s.mouseover

/-- An extension as `onView` observes it: whether it implements the
`createEventHandlers` capability (and, if so, the kind-tagged handlers the
factory returns, each with an identifying tag), and whether its options set
the `exclude.clickHandler` flag. -/
structure ExtensionModel where
  createEventHandlers : Option (List (EventKind × Nat))
  excludeClickHandler : Bool

/-- The manager settings as `onView` observes them: the global
`exclude.clickHandler` flag fixed at editor construction. -/
structure ManagerSettings where
  excludeClickHandler : Bool

/-- `onView`: return immediately when the manager settings exclude the click
handler mechanism; otherwise walk all known extensions, skip each one that
lacks `createEventHandlers` or whose options exclude the click handler, and
register every handler the factory of each remaining extension returns, in
order.  The result is the registration list `addHandler` receives. -/
def onView (settings : ManagerSettings) (extensions : List ExtensionModel) :
    List (EventKind × Nat) :=
  if settings.excludeClickHandler then []
  else
    extensions.foldl (fun acc ext =>
      match ext.createEventHandlers with
      | none => acc
      | some handlers =>
          if ext.excludeClickHandler then acc else acc ++ handlers) []

/-- The position information `getPositionFromEvent` extracts for a mouse
event: the resolved document position and prosemirror's `inside` value
(`-1` when the coordinates fall outside all document content). -/
structure EventPosition where
  pos : Nat
  inside : Int
deriving DecidableEq, Repr

/-- The document/view context a mouse-event handler closes over: the
resolver for document positions (external prosemirror `doc.resolve`, kept
abstract) and the active schema. -/
structure ViewModel where
  resolve : Nat → RPos
  schema : Schema

/-- The payload handed to hover/contextmenu handlers, restricted to its data
fields (`getMark`/`getNode` are the closures `mouseGetMark`/`mouseGetNode`
over these lists). -/
structure MouseEventHandlerProps where
  nodes : List NodeWithPos
  marks : List MarkRange
deriving DecidableEq, Repr

/-- The payload-construction part of `createMouseEventHandler`: `none` when
`getPositionFromEvent` found no position (the handler then returns `false`
without invoking `fn`); otherwise the `nodes` and `marks` lists, which stay
empty when `inside = -1` (the hit is outside all editor content) and are
populated from the resolved position when `inside > -1`. -/
def mouseHandlerProps (view : ViewModel)
    (eventPosition : Option EventPosition) :
    Option MouseEventHandlerProps :=
  match eventPosition with
  | none => none
  | some ep =>
      let p := view.resolve ep.pos
      if ep.inside > -1 then
        some { nodes := buildNodes p, marks := buildMarkRanges p }
      else
        some { nodes := [], marks := [] }

/-- `createMouseEventHandler` as invoked on one mouse event: build the
payload and pass it to the composed handler chain `fn`; when no position
resolves, return `false` without running any handler.  The returned boolean
is `isCaptured`, which the source also uses to decide `preventDefault`. -/
def createMouseEventHandler (fn : MouseEventHandlerProps → Bool)
    (view : ViewModel) (eventPosition : Option EventPosition) : Bool :=
  match mouseHandlerProps view eventPosition with
  | none => false
  | some props => fn props

/-- A concrete document root node for the examples. -/
def docNode : PMNode := { typeName := "doc", id := 0 }

/-- A concrete paragraph node for the examples. -/
def paraNode : PMNode := { typeName := "paragraph", id := 1 }

/-- A concrete text node for the examples. -/
def textNode : PMNode := { typeName := "text", id := 2 }

/-- A concrete schema for the examples, defining three node types and two
mark types. -/
def exampleSchema : Schema :=
  { nodes := ["doc", "paragraph", "text"], marks := ["bold", "italic"] }

/-- A concrete resolved position inside a paragraph (depth 1) of a two-level
document, with a text node directly after it and a bold mark active. -/
def insidePos : RPos :=
  { pos := 3
    nodesPath := [docNode, paraNode]
    beforePath := [0]
    nodeAfter := some textNode
    activeMarks := ["bold"]
    rangeOf := fun t =>
      if t == "bold" then some { markType := "bold", rangeFrom := 1, rangeTo := 5 }
      else none }

/-- A concrete resolved position at the very end of the same paragraph: no
node follows the position (`nodeAfter` is absent). -/
def endPos : RPos :=
  { pos := 5
    nodesPath := [docNode, paraNode]
    beforePath := [0]
    nodeAfter := none
    activeMarks := []
    rangeOf := fun _ => none }

theorem rrange_down_eq (d : Nat) :
    rrange (d + 1) 1 = (List.range (d + 1)).map (fun i => d + 1 - i) := by
  cases d with
  | zero => decide
  | succ m =>
      have h : ¬ (m + 1 + 1 ≤ 1) := by omega
      simp [rrange, h]

theorem RPos.node_depth_succ (p : RPos) : p.node (p.depth + 1) = none := by
  have h : p.nodesPath.length ≤ p.depth + 1 := by
    simp only [RPos.depth]; omega
  simp [RPos.node, List.getElem?_eq_none h]

theorem buildNodes_length (p : RPos) :
    (buildNodes p).length = p.depth + 1 := by
  simp [buildNodes, rrange_down_eq]

theorem buildNodes_head (p : RPos) :
    (buildNodes p).head? = some { node := p.nodeAfter, pos := p.pos } := by
  have hr : (rrange (p.depth + 1) 1).head? = some (p.depth + 1) := by
    rw [rrange_down_eq, List.range_succ_eq_map]
    simp
  have hd : (p.depth < p.depth + 1) = True := by simp
  cases ha : p.nodeAfter with
  | none =>
      simp [buildNodes, List.head?_map, hr, ha, RPos.node_depth_succ,
        RPos.before]
  | some a =>
      simp [buildNodes, List.head?_map, hr, ha, RPos.before]

theorem buildNodes_getElem (p : RPos) (k : Nat) (hk1 : 1 ≤ k)
    (hk2 : k ≤ p.depth) :
    (buildNodes p)[k]? =
      some { node := p.node (p.depth + 1 - k)
             pos := p.before (p.depth + 1 - k) } := by
  have hrange : (rrange (p.depth + 1) 1)[k]? = some (p.depth + 1 - k) := by
    rw [rrange_down_eq]
    simp [List.getElem?_range, Nat.lt_succ_of_le hk2]
  have hnotgt : ¬ (p.depth < p.depth + 1 - k) := by omega
  simp [buildNodes, List.getElem?_map, hrange, hnotgt]

theorem buildNodes_getLast (p : RPos) (h : 1 ≤ p.depth) :
    (buildNodes p).getLast? =
      some { node := p.node 1, pos := p.before 1 } := by
  have hlen : (buildNodes p).length = p.depth + 1 := buildNodes_length p
  have hlast : (buildNodes p).getLast? = (buildNodes p)[p.depth]? := by
    rw [List.getLast?_eq_getElem?, hlen]
    simp
  rw [hlast, buildNodes_getElem p p.depth h (Nat.le_refl _)]
  simp

/-- The record produced by every `handleClickOn` invocation after the first
for one raw event: the dedup cache already holds the event, so the
`clickMark` chain is skipped and the base state is the empty
(`noop`-`getMark`) one; only the `click` chain runs. -/
def steadyClickRecord (clickChainResult : Bool) : ClickInvocationRecord :=
  { handled := true
    clickMarkRan := false
    clickRan := true
    invokedChains := [EventKind.click]
    baseMarkRanges := []
    direct := false
    returnValue := clickChainResult }

theorem clickBubbleGo_seen (schema : Schema) (p : RPos) (cm c : Bool)
    (n : Nat) :
    clickBubbleGo schema p cm c true false n =
      List.replicate n (steadyClickRecord c) := by
  induction n with
  | zero => rfl
  | succ m ih =>
      simp [clickBubbleGo, handleClickOn, createClickMarkState,
        steadyClickRecord, List.replicate_succ] at ih ⊢
      exact ih

theorem simulateClickBubbling_succ (schema : Schema) (p : RPos)
    (cm c : Bool) (n : Nat) :
    simulateClickBubbling schema p cm c (n + 1) =
      { handled := false
        clickMarkRan := true
        clickRan := true
        invokedChains := [EventKind.clickMark, EventKind.click]
        baseMarkRanges := buildMarkRanges p
        direct := true
        returnValue := c || cm } :: List.replicate n (steadyClickRecord c) := by
  simp [simulateClickBubbling, clickBubbleGo, handleClickOn,
    createClickMarkState, clickBubbleGo_seen]

theorem countP_replicate {α : Type} (q : α → Bool) (a : α) (n : Nat) :
    (List.replicate n a).countP q = if q a then n else 0 := by
  induction n with
  | zero => simp
  | succ m ih =>
      rw [List.replicate_succ, List.countP_cons, ih]
      cases h : q a <;> simp [h]

theorem onView_foldl (exts : List ExtensionModel)
    (acc : List (EventKind × Nat)) :
    exts.foldl (fun acc ext =>
      match ext.createEventHandlers with
      | none => acc
      | some handlers =>
          if ext.excludeClickHandler then acc else acc ++ handlers) acc =
    acc ++ exts.flatMap (fun ext =>
      match ext.createEventHandlers with
      | none => []
      | some handlers =>
          if ext.excludeClickHandler then [] else handlers) := by
  induction exts generalizing acc with
  | nil => simp
  | cons e rest ih =>
      cases h : e.createEventHandlers with
      | none => simp [List.foldl_cons, h, ih]
      | some handlers =>
          cases hex : e.excludeClickHandler <;>
            simp [List.foldl_cons, h, hex, ih]

/-- The bookkeeping invariant of the interaction state: whenever the
`mousedown` flag is set, the one-shot document-level `mouseup` listener that
`startMouseover` attached is still pending. -/
def listenerInvariant (s : EventsState) : Bool :=
  !s.mousedown || s.mouseupListener

theorem listenerInvariant_step :
    ∀ (s : EventsState) (e : InteractionEvent),
      listenerInvariant s = true →
      listenerInvariant (interactionStep s e) = true := by
  decide

theorem listenerInvariant_run (es : List InteractionEvent) (s : EventsState)
    (h : listenerInvariant s = true) :
    listenerInvariant (interactionRun s es) = true := by
  induction es generalizing s with
  | nil => exact h
  | cons e rest ih => exact ih _ (listenerInvariant_step s e h)

theorem mousedown_mouseup_clears :
    ∀ (s : EventsState) (insideEditor : Bool),
      listenerInvariant s = true →
      isInteracting
        (interactionStep (interactionStep s .mousedownEvt)
          (.mouseupEvt insideEditor)) = false := by
  decide

theorem findNodeByType_none (t : String) (nodes : List NodeWithPos)
    (h : ∀ nw ∈ nodes, ∃ nd, nw.node = some nd ∧ nd.typeName ≠ t) :
    findNodeByType t nodes = Except.ok none := by
  induction nodes with
  | nil => rfl
  | cons nw rest ih =>
      obtain ⟨nd, hnd, hne⟩ := h nw (List.mem_cons_self nw rest)
      have hbeq : (nd.typeName == t) = false := beq_eq_false_iff_ne.mpr hne
      simp only [findNodeByType, hnd, hbeq, Bool.false_eq_true, if_false]
      exact ih fun x hx => h x (List.mem_cons_of_mem nw hx)

/-- C1: for a single physical click whose raw `handleClickOn` callback is
invoked once per ancestor node (innermost first, with a fresh dedup cache),
the `clickMark` chain is invoked only on the first invocation — the WeakMap
dedup entry written by the first invocation makes every later one read
`handled = true` — while the `click` chain is invoked on every invocation;
`direct` is true only on the innermost invocation.  For `n + 1` ancestor
invocations the `click` chain therefore fires `n + 1` times and the
`clickMark` chain exactly once (so 3 times and once for a three-level-deep
hit). -/
theorem claim_c1_click_dedup (schema : Schema) (p : RPos) (cm c : Bool)
    (n : Nat) :
    (simulateClickBubbling schema p cm c (n + 1)).map (·.clickRan) =
      List.replicate (n + 1) true ∧
    (simulateClickBubbling schema p cm c (n + 1)).map (·.clickMarkRan) =
      true :: List.replicate n false ∧
    (simulateClickBubbling schema p cm c (n + 1)).map (·.direct) =
      true :: List.replicate n false ∧
    (simulateClickBubbling schema p cm c (n + 1)).length = n + 1 ∧
    (simulateClickBubbling schema p cm c (n + 1)).countP (·.clickMarkRan) =
      1 ∧
    (simulateClickBubbling schema p cm c (n + 1)).countP (·.clickRan) =
      n + 1 := by
  rw [simulateClickBubbling_succ]
  refine ⟨?_, ?_, ?_, ?_, ?_, ?_⟩ <;>
    simp [steadyClickRecord, List.map_replicate, List.replicate_succ,
      List.countP_cons, countP_replicate]

/-- C2 counterexample: on a two-level document (root containing a
paragraph), the ancestor chain built for a position inside the paragraph
ends with the paragraph — the depth-1 ancestor — and not with the document
root, so the claim "its last element is always the document root node" is
false at this input. -/
theorem claim_c2_counterexample :
    (buildNodes insidePos).getLast? =
      some { node := some paraNode, pos := 0 } ∧
    insidePos.node 0 = some docNode ∧
    paraNode ≠ docNode := by
  refine ⟨by decide, by decide, by decide⟩

/-- C2 (amended): the nodes sequence has length `depth + 1` and runs from
the innermost entry outward — entry `k` is built for depth index
`depth + 1 - k`, so the head is the inter-node entry
`(nodeAfter, pos)` and, for positions of depth at least 1, the last entry
is the ancestor at depth index 1 (the top-level node); the document root
(depth 0) is never enumerated. -/
theorem claim_c2_chain_shape (p : RPos) :
    (buildNodes p).length = p.depth + 1 ∧
    (buildNodes p).head? = some { node := p.nodeAfter, pos := p.pos } ∧
    (∀ k, 1 ≤ k → k ≤ p.depth →
      (buildNodes p)[k]? =
        some { node := p.node (p.depth + 1 - k)
               pos := p.before (p.depth + 1 - k) }) ∧
    (1 ≤ p.depth →
      (buildNodes p).getLast? =
        some { node := p.node 1, pos := p.before 1 }) :=
  ⟨buildNodes_length p, buildNodes_head p,
    fun k hk1 hk2 => buildNodes_getElem p k hk1 hk2,
    fun h => buildNodes_getLast p h⟩

/-- Witness for C2 (amended) at the concrete position `insidePos`. -/
theorem claim_c2_chain_shape_witness :
    (buildNodes insidePos).length = insidePos.depth + 1 ∧
    (buildNodes insidePos)[1]? =
      some { node := insidePos.node 1, pos := insidePos.before 1 } ∧
    (buildNodes insidePos).getLast? =
      some { node := insidePos.node 1, pos := insidePos.before 1 } := by
  obtain ⟨h1, h2, h3, h4⟩ := claim_c2_chain_shape insidePos
  exact ⟨h1, h3 1 (by decide) (by decide), h4 (by decide)⟩

/-- C5 counterexample: at a position at the very end of its container
(`nodeAfter` absent), the innermost chain entry carries no node at all —
the source falls back to `$pos.node(depth + 1)`, an out-of-range lookup
yielding `undefined` — rather than the immediate container (the paragraph),
so the "otherwise fall back to the resolved position's immediate container"
part of the claim is false at this input. -/
theorem claim_c5_counterexample :
    endPos.nodeAfter = none ∧
    endPos.node endPos.depth = some paraNode ∧
    (buildNodes endPos).head? = some { node := none, pos := 5 } ∧
    (none : Option PMNode) ≠ some paraNode := by
  refine ⟨by decide, by decide, by decide, by decide⟩

/-- C5 (amended): the innermost entry of the ancestor chain is
`(nodeAfter, pos)` — the node immediately following the hit point when one
exists; otherwise its node field is the out-of-range `node(depth + 1)`
lookup, which is always empty (`undefined` at runtime), so the immediate
container is never substituted. -/
theorem claim_c5_innermost_rule (p : RPos) :
    (buildNodes p).head? = some { node := p.nodeAfter, pos := p.pos } ∧
    p.node (p.depth + 1) = none :=
  ⟨buildNodes_head p, RPos.node_depth_succ p⟩

/-- C3: `isInteracting` is the conjunction of the `mousedown` (interacting)
flag and the `mouseover` (pointer-over) flag; it is false in the initial
state, true immediately after a `mousedown` inside the editor (from any
reachable state), and false again after the next `mouseup`, whether that
`mouseup` lands inside or outside the editor bounds — the one-shot
document-level listener attached on `mousedown` clears the flag either
way. -/
theorem claim_c3_is_interacting :
    (∀ s : EventsState, isInteracting s = (s.mousedown && s.mouseover)) ∧
    isInteracting initialEventsState = false ∧
    (∀ s : EventsState,
      isInteracting (interactionStep s .mousedownEvt) = true) ∧
    (∀ (es : List InteractionEvent) (insideEditor : Bool),
      isInteracting
        (interactionStep
          (interactionStep (interactionRun initialEventsState es)
            .mousedownEvt)
          (.mouseupEvt insideEditor)) = false) := by
  refine ⟨fun s => rfl, by decide, by decide, fun es insideEditor => ?_⟩
  exact mousedown_mouseup_clears _ insideEditor
    (listenerInvariant_run es initialEventsState (by decide))

/-- C9: the `mousedown` DOM handler calls `startMouseover`, whose first
statement sets the pointer-over flag, so right after any `mousedown`
`isInteracting` is true — in particular from a state where a `mouseleave`
had just cleared the pointer-over flag with no intervening `mouseenter`. -/
theorem claim_c9_mousedown_sets_mouseover :
    (∀ s : EventsState,
      (interactionStep s .mousedownEvt).mouseover = true) ∧
    (∀ s : EventsState,
      isInteracting (interactionStep s .mousedownEvt) = true) ∧
    (∀ s : EventsState,
      isInteracting
        (interactionStep (interactionStep s .mouseleaveEvt)
          .mousedownEvt) = true) := by
  refine ⟨by decide, by decide, by decide⟩

/-- C4: the `handlerKeyOptions` mark exactly focus, blur, mousedown,
mouseup, mouseleave and click as early-return kinds; mouseenter,
contextmenu and clickMark are registered kinds dispatched run-all; the
`clickMark` chain runs before the `click` chain within one `handleClickOn`
invocation.  However `hover` is NOT in the `handlerKeys` list, although the
plugin's `mouseover`/`mouseout` DOM wiring invokes the `hover` chain — so
no hover handler chain is ever composed and the claim's "hover is
dispatched run-all" is contradicted by the code itself. -/
theorem claim_c4_dispatch_policies :
    (∀ k : EventKind, earlyReturnValue k = true ↔
      k ∈ [EventKind.blur, EventKind.focus, EventKind.mousedown,
           EventKind.mouseup, EventKind.mouseleave, EventKind.click]) ∧
    EventKind.mouseenter ∈ handlerKeys ∧
    EventKind.contextmenu ∈ handlerKeys ∧
    EventKind.clickMark ∈ handlerKeys ∧
    EventKind.hover ∉ handlerKeys ∧
    ("mouseover", EventKind.hover) ∈ handleDOMEventsWiring ∧
    ("mouseout", EventKind.hover) ∈ handleDOMEventsWiring ∧
    (∀ rs : List Bool,
      dispatchChain .clickMark rs = (rs.any id, rs.length)) ∧
    (∀ post : List Bool,
      dispatchChain .click (false :: false :: true :: post) = (true, 3)) ∧
    (∀ (schema : Schema) (p : RPos) (cm c : Bool),
      (handleClickOn schema p true false cm c).1.invokedChains =
        [EventKind.clickMark, EventKind.click]) := by
  refine ⟨by decide, by decide, by decide, by decide, by decide, by decide,
    by decide, fun rs => rfl, fun post => rfl, fun schema p cm c => rfl⟩

/-- C6 counterexample: the `getMark` a click handler receives on a
deduplicated (already-handled) `handleClickOn` invocation is the `noop`
callback, so calling it with a type name that does not exist in the schema
("strike" here) silently returns `undefined` instead of halting with a
fault — the claim's "inside any handler" is false for this handler state. -/
theorem claim_c6_counterexample :
    "strike" ∉ exampleSchema.marks ∧
    (createClickMarkState exampleSchema insidePos true).getMark "strike" =
      Except.ok none :=
  ⟨by decide, rfl⟩

/-- C6 (amended): the mouse-handler `getNode`/`getMark`, the click-state
`getNode`, and the clickMark-state `getMark` of a first (unhandled)
invocation all halt with a descriptive fault when the requested type name
is not in the schema, and return `undefined` when the type exists but does
not match — except that on deduplicated (already-handled) invocations the
click/clickMark state's `getMark` is the `noop`, returning `undefined` for
every name without consulting the schema. -/
theorem claim_c6_lookup_faults :
    (∀ (schema : Schema) (node : PMNode) (nodePos : Nat) (name : String),
      name ∉ schema.nodes →
      clickGetNode schema node nodePos name =
        .error "The node being checked does not exist") ∧
    (∀ (schema : Schema) (node : PMNode) (nodePos : Nat) (name : String),
      name ∈ schema.nodes → node.typeName ≠ name →
      clickGetNode schema node nodePos name = .ok none) ∧
    (∀ (schema : Schema) (ranges : List MarkRange) (name : String),
      name ∉ schema.marks →
      getMarkFor schema ranges name =
        .error ("The mark " ++ name ++
          " being checked does not exist within the editor schema.")) ∧
    (∀ (schema : Schema) (ranges : List MarkRange) (name : String),
      name ∈ schema.marks → (∀ r ∈ ranges, r.markType ≠ name) →
      getMarkFor schema ranges name = .ok none) ∧
    (∀ (schema : Schema) (nodes : List NodeWithPos) (name : String),
      name ∉ schema.nodes →
      mouseGetNode schema nodes name =
        .error "The node being checked does not exist") ∧
    (∀ (schema : Schema) (nodes : List NodeWithPos) (name : String),
      name ∈ schema.nodes →
      (∀ nw ∈ nodes, ∃ nd, nw.node = some nd ∧ nd.typeName ≠ name) →
      mouseGetNode schema nodes name = .ok none) ∧
    (∀ (schema : Schema) (p : RPos) (name : String),
      (createClickMarkState schema p true).getMark name =
        Except.ok none) := by
  refine ⟨?_, ?_, ?_, ?_, ?_, ?_, fun schema p name => rfl⟩
  · intro schema node nodePos name h
    simp [clickGetNode, Schema.lookupNode, h]
  · intro schema node nodePos name hmem hne
    simp [clickGetNode, Schema.lookupNode, hmem,
      beq_eq_false_iff_ne.mpr hne]
  · intro schema ranges name h
    simp [getMarkFor, Schema.lookupMark, h]
  · intro schema ranges name hmem hnone
    simp only [getMarkFor, Schema.lookupMark, hmem, if_pos, if_true]
    rw [List.find?_eq_none.mpr fun r hr =>
      by simpa using beq_eq_false_iff_ne.mpr (hnone r hr)]
  · intro schema nodes name h
    simp [mouseGetNode, Schema.lookupNode, h]
  · intro schema nodes name hmem hall
    simp [mouseGetNode, Schema.lookupNode, hmem,
      findNodeByType_none name nodes hall]

/-- Witness for C6 (amended) at concrete schema, nodes and names. -/
theorem claim_c6_lookup_faults_witness :
    clickGetNode exampleSchema paraNode 0 "nonexistent" =
      .error "The node being checked does not exist" ∧
    clickGetNode exampleSchema paraNode 0 "text" = .ok none ∧
    getMarkFor exampleSchema [] "strike" =
      .error ("The mark " ++ "strike" ++
        " being checked does not exist within the editor schema.") ∧
    getMarkFor exampleSchema [] "italic" = .ok none ∧
    mouseGetNode exampleSchema [] "nonexistent" =
      .error "The node being checked does not exist" ∧
    mouseGetNode exampleSchema
      [{ node := some textNode, pos := 3 }] "doc" = .ok none ∧
    (createClickMarkState exampleSchema insidePos true).getMark "strike" =
      Except.ok none := by
  obtain ⟨h1, h2, h3, h4, h5, h6, h7⟩ := claim_c6_lookup_faults
  refine ⟨h1 exampleSchema paraNode 0 "nonexistent" (by decide),
    h2 exampleSchema paraNode 0 "text" (by decide) (by decide),
    h3 exampleSchema [] "strike" (by decide),
    h4 exampleSchema [] "italic" (by decide) (by simp),
    h5 exampleSchema [] "nonexistent" (by decide),
    h6 exampleSchema [{ node := some textNode, pos := 3 }] "doc"
      (by decide) ?_,
    h7 exampleSchema insidePos "strike"⟩
  intro nw hnw
  rw [List.mem_singleton] at hnw
  subst hnw
  exact ⟨textNode, rfl, by decide⟩

/-- C7: when `getPositionFromEvent` finds no position at all, the mouse
event handler returns `false` and never builds a payload (no handler
fires); when a position is found but `inside = -1` (the hit is outside all
document content), the handler chain is still invoked, with empty `nodes`
and `marks` lists, and the dispatch completes normally with the chain's own
result. -/
theorem claim_c7_resolution_miss (fn : MouseEventHandlerProps → Bool)
    (view : ViewModel) :
    (mouseHandlerProps view none = none ∧
      createMouseEventHandler fn view none = false) ∧
    (∀ pos : Nat,
      mouseHandlerProps view (some { pos := pos, inside := -1 }) =
        some { nodes := [], marks := [] } ∧
      createMouseEventHandler fn view (some { pos := pos, inside := -1 }) =
        fn { nodes := [], marks := [] }) := by
  refine ⟨⟨rfl, rfl⟩, fun pos => ?_⟩
  have h : ¬ ((-1 : Int) > -1) := by omega
  constructor <;>
    simp [mouseHandlerProps, createMouseEventHandler, h]

/-- C8: `onView` registers nothing when the manager settings' global
exclusion flag is set; otherwise it registers, in extension order, exactly
the handlers returned by the `createEventHandlers` factory of every
extension that implements the capability and does not set its own
`exclude.clickHandler` flag. -/
theorem claim_c8_on_view (settings : ManagerSettings)
    (exts : List ExtensionModel) :
    onView settings exts =
      if settings.excludeClickHandler then []
      else exts.flatMap (fun ext =>
        match ext.createEventHandlers with
        | none => []
        | some handlers =>
            if ext.excludeClickHandler then [] else handlers) := by
  cases h : settings.excludeClickHandler with
  | true => simp [onView, h]
  | false => simp [onView, h, onView_foldl]

/-- C10: on every `handleClickOn` invocation after the first for one raw
event the dedup cache already holds the event, so the state passed on to
the click handlers carries an empty `markRanges` list, and the `getMark` of
such a handled state is the `noop`, returning `undefined` for every type
name; the mark ranges are computed and exposed only on the first
invocation. -/
theorem claim_c10_deduped_state (schema : Schema) (p : RPos) (cm c : Bool)
    (n : Nat) :
    (simulateClickBubbling schema p cm c (n + 1)).map (·.handled) =
      false :: List.replicate n true ∧
    (simulateClickBubbling schema p cm c (n + 1)).map (·.baseMarkRanges) =
      buildMarkRanges p :: List.replicate n [] ∧
    (createClickMarkState schema p true).markRanges = [] ∧
    (∀ name, (createClickMarkState schema p true).getMark name =
      Except.ok none) ∧
    (createClickMarkState schema p false).markRanges =
      buildMarkRanges p := by
  rw [simulateClickBubbling_succ]
  refine ⟨?_, ?_, rfl, fun name => rfl, rfl⟩ <;>
    simp [steadyClickRecord, List.map_replicate]
